import Mathlib

/-!
Shallow embedding of the settings/provider logic of the repository:
`app/lib/hooks/useSettings.tsx` and the cookie-loading effect of
`app/components/chat/BaseChat.tsx`.

JavaScript objects are modelled as insertion-ordered association lists
(`JObj`), with `get` (property read), `setKey` (nanostores `setKey` /
property write) and `spread` (object literal spread `\x7b...a, ...b\x7d`).
The external world (cookie reads, `JSON.parse`, `fetch`) enters as explicit
parameters; `try/catch` blocks become total functions returning the state
together with the list of diagnostics logged.
-/

namespace BoltSettings

/-- JSON-ish scalar values that can appear in persisted settings fields. -/
inductive JVal where
  | bool (b : Bool)
  | str (s : String)
  | null
deriving DecidableEq, Repr

/-- JavaScript truthiness of a value (`undefined` is handled by `Option`). -/
def JVal.truthy : JVal → Bool
  | .bool b => b
  | .str s => decide (s ≠ "")
  | .null => false

/-- A JavaScript object: insertion-ordered association list. -/
abbrev JObj (α : Type) := List (String × α)

/-- Property read `o[key]`; `none` models `undefined`. -/
def JObj.get {α : Type} : JObj α → String → Option α
  | [], _ => none
  | (k, v) :: rest, key => if k = key then some v else JObj.get rest key

/-- Whether the object has the property. -/
def JObj.hasKey {α : Type} (o : JObj α) (k : String) : Bool :=
  (JObj.get o k).isSome

/-- Property write: update in place when present (keeping position), else
append — the semantics of nanostores `setKey` and of a literal field after
a spread. -/
def JObj.setKey {α : Type} : JObj α → String → α → JObj α
  | [], key, val => [(key, val)]
  | (k, v) :: rest, key, val =>
    if k = key then (key, val) :: rest else (k, v) :: JObj.setKey rest key val

/-- Object spread `\x7b...a, ...b\x7d`: keys of `a` in order with `b`'s value
winning, then keys of `b` absent from `a`, in `b`'s order. -/
def JObj.spread {α : Type} (a b : JObj α) : JObj α :=
  (a.map (fun p => (p.1, (JObj.get b p.1).getD p.2)))
    ++ b.filter (fun p => !(JObj.hasKey a p.1))

/-- Nullish coalescing `v ?? d` where `v : Option JVal` (`none` models
`undefined`). -/
def nullishDefault (v : Option JVal) (d : JVal) : JVal :=
  match v with
  | none => d
  | some JVal.null => d
  | some v => v

/-- Per-provider settings: an object of scalar fields (possibly including
`"enabled"`). -/
abbrev SettingsObj := JObj JVal

/-- A registry entry. `name := none` models a JS object with no `name`
property (as produced by spreading `undefined`). Static metadata other
than `name` plays no role in the claims. -/
structure ProviderInfo where
  name : Option String
  settings : SettingsObj
deriving DecidableEq, Repr

/-- The in-memory provider registry (`providersStore`): provider name to
`ProviderInfo`, insertion-ordered. -/
abbrev Registry := JObj ProviderInfo

/-- A parsed `providers` cookie payload: provider name to partial settings. -/
abbrev Payload := JObj SettingsObj

/-- Outcome of `JSON.parse` plus the `typeof == 'object' && != null` test:
a throw, a non-object value, or an object payload. -/
inductive JsonParseResult (α : Type) where
  | failure
  | nonObject
  | object (val : α)
deriving DecidableEq, Repr

/-- The settings object hydration builds for one persisted record:
`\x7b ...parsedProviders[provider], enabled: parsedProviders[provider].enabled ?? true \x7d`. -/
def hydrateSettings (parsed : SettingsObj) : SettingsObj :=
  JObj.setKey parsed "enabled"
    (nullishDefault (JObj.get parsed "enabled") (JVal.bool true))

/-- The entry hydration stores for one persisted record:
`\x7b ...currentProvider, settings: ... \x7d`, where `currentProvider` is the
lookup in the mount-time registry snapshot (possibly `undefined`). -/
def hydrateEntry (orig : Registry) (provider : String) (parsed : SettingsObj) :
    ProviderInfo :=
  match JObj.get orig provider with
  | some currentProvider => { currentProvider with settings := hydrateSettings parsed }
  | none => { name := none, settings := hydrateSettings parsed }

/-- The `Object.keys(parsedProviders).forEach` loop of the providers
hydration effect: each persisted record is written into the store with
`setKey`; lookups of the current provider use the mount-time snapshot
`orig` throughout. -/
def applyProvidersPayload (orig : Registry) (payload : Payload) : Registry :=
  payload.foldl
    (fun store entry => JObj.setKey store entry.1 (hydrateEntry orig entry.1 entry.2))
    orig

/-- The providers hydration effect of `useSettings` (lines 55–74): reads the
`providers` cookie, and inside `try/catch` parses and merges it. Returns the
resulting registry and the diagnostics logged. -/
def hydrateProviders (orig : Registry) (savedProviders : Option String)
    (parseJson : String → JsonParseResult Payload) : Registry × List String :=
  match savedProviders with
  | none => (orig, [])
  | some s =>
    if s = "" then (orig, [])
    else
      match parseJson s with
      | .failure => (orig, ["Failed to parse providers from cookies:"])
      | .nonObject => (orig, [])
      | .object payload => (applyProvidersPayload orig payload, [])

/-- Boolean-preference hydration (`isDebugEnabled`, `isEventLogsEnabled`,
`isLocalModelsEnabled`): `if (saved) store.set(saved === 'true')`. -/
def hydrateBoolPref (saved : Option String) (current : Bool) : Bool :=
  match saved with
  | none => current
  | some s => if s = "" then current else decide (s = "true")

/-- `String(b)` for a JS boolean. -/
def boolStr (b : Bool) : String :=
  if b then "true" else "false"

/-- Observable effect of one boolean-preference setter: the store value set,
the cookie key/value written, and the system-log message emitted. -/
structure PrefWrite where
  cookieKey : String
  cookieValue : String
  storeValue : Bool
  logMessage : Option String
deriving DecidableEq, Repr

/-- `enableDebugMode` (useSettings lines 155–159). -/
def enableDebugMode (enabled : Bool) : PrefWrite :=
  { cookieKey := "isDebugEnabled", cookieValue := boolStr enabled,
    storeValue := enabled,
    logMessage := some ("Debug mode " ++ (if enabled then "enabled" else "disabled")) }

/-- `enableEventLogs` (useSettings lines 161–165). -/
def enableEventLogs (enabled : Bool) : PrefWrite :=
  { cookieKey := "isEventLogsEnabled", cookieValue := boolStr enabled,
    storeValue := enabled,
    logMessage := some ("Event logs " ++ (if enabled then "enabled" else "disabled")) }

/-- `enableLocalModels` (useSettings lines 167–171). -/
def enableLocalModels (enabled : Bool) : PrefWrite :=
  { cookieKey := "isLocalModelsEnabled", cookieValue := boolStr enabled,
    storeValue := enabled,
    logMessage := some ("Local models " ++ (if enabled then "enabled" else "disabled")) }

/-- `enableLatestBranch` (useSettings lines 177–181). -/
def enableLatestBranch (enabled : Bool) : PrefWrite :=
  { cookieKey := "isLatestBranch", cookieValue := boolStr enabled,
    storeValue := enabled,
    logMessage := some ("Main branch updates " ++ (if enabled then "enabled" else "disabled")) }

/-- JS truthiness of `provider.settings.enabled` (an absent property is
falsy). -/
def enabledTruthy (s : SettingsObj) : Bool :=
  match JObj.get s "enabled" with
  | none => false
  | some v => v.truthy

/-- `LOCAL_PROVIDERS.includes(p.name)`: `includes` of `undefined` is
`false`. -/
def isLocalName (localProviders : List String) (p : ProviderInfo) : Bool :=
  match p.name with
  | none => false
  | some n => localProviders.contains n

/-- The `activeProviders` effect (useSettings lines 134–144): filter the
registry entries by the truthiness of `settings.enabled`, take the values,
and when the local-models preference is off additionally drop the
providers whose name is in `LOCAL_PROVIDERS`. The fixed list
`LOCAL_PROVIDERS` lives in `~/lib/stores/settings` (outside the sources);
it is a parameter here. -/
def activeProviders (providers : Registry) (isLocalModel : Bool)
    (localProviders : List String) : List ProviderInfo :=
  let active :=
    (providers.filter (fun entry => enabledTruthy entry.2.settings)).map (fun entry => entry.2)
  if !isLocalModel then
    active.filter (fun p => !(isLocalName localProviders p))
  else
    active

/-- `updateProviderSettings` (useSettings lines 147–153). The body reads
`providers[provider].settings` with no guard: when the provider is absent
this property access throws, modelled as `none`. Otherwise the entry is
rewritten with `settings: \x7b ...settings, ...config \x7d`. -/
def updateProviderSettings (providers : Registry) (provider : String)
    (config : SettingsObj) : Option Registry :=
  match JObj.get providers provider with
  | none => none
  | some info =>
    some (JObj.setKey providers provider
      { info with settings := JObj.spread info.settings config })

/-- The commit metadata of a build or of a fetched `commit.json`. -/
structure CommitData where
  commit : String
  version : Option String
deriving DecidableEq, Repr

/-- What the remote fetch of `checkIsStableVersion` can come back with:
a thrown network error, or a response with a success flag whose body
either fails to parse as JSON or parses to commit data. -/
inductive FetchOutcome where
  | networkError
  | response (ok : Bool) (body : JsonParseResult CommitData)
deriving DecidableEq, Repr

/-- The three failure shapes of the fetch: network error, non-success
status, parse failure. -/
def fetchFailed : FetchOutcome → Bool
  | .networkError => true
  | .response false _ => true
  | .response true .failure => true
  | .response true .nonObject => false
  | .response true (.object _) => false

/-- `checkIsStableVersion` (useSettings lines 34–52): returns the boolean
result together with the diagnostics logged. The whole body sits in a
`try/catch`, so every outcome produces a value — nothing propagates to the
caller. A body that parses to a non-object JSON value makes
`stableData.commit` an absent property, compared against the build commit. -/
def checkIsStableVersion (buildCommit : String) (outcome : FetchOutcome) :
    Bool × List String :=
  match outcome with
  | .networkError => (false, ["Error checking stable version:"])
  | .response ok body =>
    if !ok then (false, ["Failed to fetch stable commit info"])
    else
      match body with
      | .failure => (false, ["Error checking stable version:"])
      | .nonObject => (false, [])
      | .object stableData => (decide (buildCommit = stableData.commit), [])

/-- Observable outcome of the latest-branch hydration (useSettings lines
104–121): whether `checkIsStableVersion` ran (a network call), the value
`latestBranchStore` ends with, and the cookie writes performed. -/
structure LatestBranchOutcome where
  fetched : Bool
  store : Bool
  cookieLatest : Option String
  cookieCommit : Option String
deriving DecidableEq, Repr

/-- The latest-branch hydration (useSettings lines 104–121). `isStable` is
the value `checkIsStableVersion` resolves with when the check runs. The
source first defaults `checkCommit` to the build commit when the
`commitHash` cookie is `undefined` (`Option.getD` here), then gates on
`savedLatestBranch === undefined || checkCommit !== commit.commit`. -/
def hydrateLatestBranch (savedLatestBranch savedCommitHash : Option String)
    (buildCommit : String) (isStable : Bool) : LatestBranchOutcome :=
  if savedLatestBranch = none ∨ savedCommitHash.getD buildCommit ≠ buildCommit then
    { fetched := true, store := !isStable,
      cookieLatest := some (boolStr (!isStable)),
      cookieCommit := some buildCommit }
  else
    { fetched := false, store := decide (savedLatestBranch = some "true"),
      cookieLatest := none, cookieCommit := none }

/-- Outcome of the `apiKeys` branch of the BaseChat cookie-loading effect
(BaseChat lines 120–137): resulting `apiKeys` state, whether the cookie was
removed, and the diagnostics logged. -/
structure ApiKeysLoad where
  apiKeys : JObj String
  cookieRemoved : Bool
  logs : List String
deriving DecidableEq, Repr

/-- The `apiKeys` branch of the BaseChat effect: parse failure is caught —
it logs and removes the cookie, leaving the state untouched; a non-object
parse leaves everything untouched. -/
def loadApiKeysFromCookies (current : JObj String) (stored : Option String)
    (parseJson : String → JsonParseResult (JObj String)) : ApiKeysLoad :=
  match stored with
  | none => { apiKeys := current, cookieRemoved := false, logs := [] }
  | some s =>
    if s = "" then { apiKeys := current, cookieRemoved := false, logs := [] }
    else
      match parseJson s with
      | .failure =>
        { apiKeys := current, cookieRemoved := true,
          logs := ["Error loading API keys from cookies:"] }
      | .nonObject => { apiKeys := current, cookieRemoved := false, logs := [] }
      | .object o => { apiKeys := o, cookieRemoved := false, logs := [] }

/-- Outcome of the `providers` branch of the BaseChat cookie-loading effect
(BaseChat lines 139–156): the `providerSettings` value passed on (it starts
as `undefined`), whether the cookie was removed, and the diagnostics. -/
structure ProviderCookieLoad where
  providerSettings : Option Payload
  cookieRemoved : Bool
  logs : List String
deriving DecidableEq, Repr

/-- The `providers` branch of the BaseChat effect: parse failure is caught —
it logs and removes the cookie, leaving `providerSettings` at `undefined`. -/
def loadProviderSettingsFromCookies (stored : Option String)
    (parseJson : String → JsonParseResult Payload) : ProviderCookieLoad :=
  match stored with
  | none => { providerSettings := none, cookieRemoved := false, logs := [] }
  | some s =>
    if s = "" then { providerSettings := none, cookieRemoved := false, logs := [] }
    else
      match parseJson s with
      | .failure =>
        { providerSettings := none, cookieRemoved := true,
          logs := ["Error loading Provider Settings from cookies:"] }
      | .nonObject => { providerSettings := none, cookieRemoved := false, logs := [] }
      | .object payload =>
        { providerSettings := some payload, cookieRemoved := false, logs := [] }

/-! ### Lemmas about the object operations -/

/-- `optOr a b` is `a` when present, else `b` (JS property shadowing). -/
def optOr {α : Type} : Option α → Option α → Option α
  | some a, _ => some a
  | none, b => b

theorem optOr_none_right {α : Type} (a : Option α) : optOr a none = a := by
  cases a <;> rfl

theorem JObj.get_setKey_self {α : Type} (o : JObj α) (k : String) (v : α) :
    JObj.get (JObj.setKey o k v) k = some v := by
  induction o with
  | nil => simp [JObj.setKey, JObj.get]
  | cons hd tl ih =>
    by_cases h : hd.1 = k
    · simp [JObj.setKey, JObj.get, h]
    · simp [JObj.setKey, JObj.get, h, ih]

theorem JObj.get_setKey_ne {α : Type} (o : JObj α) (k k' : String) (v : α)
    (h : k' ≠ k) : JObj.get (JObj.setKey o k v) k' = JObj.get o k' := by
  have hne : ¬ k = k' := fun hh => h hh.symm
  induction o with
  | nil => simp [JObj.setKey, JObj.get, hne]
  | cons hd tl ih =>
    by_cases hk : hd.1 = k
    · subst hk
      simp [JObj.setKey, JObj.get, hne]
    · simp only [JObj.setKey, hk, if_false, JObj.get]
      by_cases hk' : hd.1 = k' <;> simp [hk', ih]

theorem JObj.get_append {α : Type} (x y : JObj α) (k : String) :
    JObj.get (x ++ y) k = optOr (JObj.get x k) (JObj.get y k) := by
  induction x with
  | nil => simp [JObj.get, optOr]
  | cons hd tl ih =>
    by_cases h : hd.1 = k
    · simp [JObj.get, h, optOr]
    · simp [JObj.get, h, ih]

theorem JObj.get_spread_left {α : Type} (a b : JObj α) (k : String) :
    JObj.get (a.map (fun p => (p.1, (JObj.get b p.1).getD p.2))) k
      = (JObj.get a k).map (fun v => (JObj.get b k).getD v) := by
  induction a with
  | nil => simp [JObj.get]
  | cons hd tl ih =>
    by_cases h : hd.1 = k
    · subst h; simp [JObj.get]
    · simp [JObj.get, h, ih]

theorem JObj.get_spread_right {α : Type} (a b : JObj α) (k : String) :
    JObj.get (b.filter (fun p => !(JObj.hasKey a p.1))) k
      = if JObj.hasKey a k then none else JObj.get b k := by
  induction b with
  | nil => simp [JObj.get]
  | cons hd tl ih =>
    by_cases h : hd.1 = k
    · subst h
      by_cases hq : JObj.hasKey a hd.1 <;> simp [JObj.get, hq, ih]
    · by_cases hq : JObj.hasKey a hd.1 <;> simp [JObj.get, h, hq, ih]

/-- Property read on a spread: the right operand's properties shadow the
left's. -/
theorem JObj.get_spread {α : Type} (a b : JObj α) (k : String) :
    JObj.get (JObj.spread a b) k = optOr (JObj.get b k) (JObj.get a k) := by
  unfold JObj.spread
  rw [JObj.get_append, JObj.get_spread_left, JObj.get_spread_right]
  unfold JObj.hasKey
  cases ha : JObj.get a k with
  | none =>
    simp only [ha, Option.map_none, Option.isSome_none, if_neg Bool.false_ne_true]
    exact (optOr_none_right _).symm
  | some v =>
    simp only [ha, Option.map_some, Option.isSome_some, if_pos rfl]
    cases hb : JObj.get b k <;> simp [optOr, Option.getD]

/-! ### Lemmas about the providers-hydration fold -/

theorem applyProvidersPayload_fold_get_ne (orig : Registry) (payload : Payload)
    (store : Registry) (k : String) (h : ∀ e ∈ payload, e.1 ≠ k) :
    JObj.get
      (payload.foldl
        (fun st e => JObj.setKey st e.1 (hydrateEntry orig e.1 e.2)) store) k
      = JObj.get store k := by
  induction payload generalizing store with
  | nil => rfl
  | cons hd tl ih =>
    simp only [List.foldl_cons]
    rw [ih _ (fun e he => h e (List.mem_cons_of_mem hd he)),
      JObj.get_setKey_ne _ _ _ _ (fun hk => h hd (List.mem_cons_self hd tl) hk.symm)]

theorem applyProvidersPayload_fold_get_mem (orig : Registry) (payload : Payload)
    (store : Registry) (provider : String) (parsed : SettingsObj)
    (hnd : (payload.map Prod.fst).Nodup) (hmem : (provider, parsed) ∈ payload) :
    JObj.get
      (payload.foldl
        (fun st e => JObj.setKey st e.1 (hydrateEntry orig e.1 e.2)) store) provider
      = some (hydrateEntry orig provider parsed) := by
  induction payload generalizing store with
  | nil => exact absurd hmem (List.not_mem_nil _)
  | cons hd tl ih =>
    rcases List.mem_cons.mp hmem with heq | htl
    · subst heq
      simp only [List.foldl_cons]
      have hni : ∀ e ∈ tl, e.1 ≠ provider := by
        intro e he hk
        have : provider ∈ tl.map Prod.fst := hk ▸ List.mem_map_of_mem Prod.fst he
        exact (List.nodup_cons.mp (by simpa using hnd)).1 this
      rw [applyProvidersPayload_fold_get_ne orig tl _ provider hni,
        JObj.get_setKey_self]
    · simp only [List.foldl_cons]
      exact ih _ (List.nodup_cons.mp (by simpa using hnd)).2 htl

/-- Hydration at a provider present in the payload (payload keys unique, as
for any JSON object): the stored entry is `hydrateEntry` of the mount-time
registry and the persisted record. -/
theorem applyProvidersPayload_get_mem (orig : Registry) (payload : Payload)
    (provider : String) (parsed : SettingsObj)
    (hnd : (payload.map Prod.fst).Nodup) (hmem : (provider, parsed) ∈ payload) :
    JObj.get (applyProvidersPayload orig payload) provider
      = some (hydrateEntry orig provider parsed) :=
  applyProvidersPayload_fold_get_mem orig payload orig provider parsed hnd hmem

/-- Hydration leaves providers outside the payload untouched. -/
theorem applyProvidersPayload_get_not_mem (orig : Registry) (payload : Payload)
    (provider : String) (h : ∀ e ∈ payload, e.1 ≠ provider) :
    JObj.get (applyProvidersPayload orig payload) provider
      = JObj.get orig provider :=
  applyProvidersPayload_fold_get_ne orig payload orig provider h

/-- Both branches of `hydrateEntry` store the same settings object. -/
theorem hydrateEntry_settings (orig : Registry) (provider : String)
    (parsed : SettingsObj) :
    (hydrateEntry orig provider parsed).settings = hydrateSettings parsed := by
  unfold hydrateEntry
  cases JObj.get orig provider <;> rfl

/-- The `enabled` field hydration stores. -/
theorem hydrateSettings_get_enabled (parsed : SettingsObj) :
    JObj.get (hydrateSettings parsed) "enabled"
      = some (nullishDefault (JObj.get parsed "enabled") (JVal.bool true)) :=
  JObj.get_setKey_self parsed "enabled" _

/-- Fields other than `enabled` of the hydrated settings come from the
persisted record alone. -/
theorem hydrateSettings_get_other (parsed : SettingsObj) (field : String)
    (h : field ≠ "enabled") :
    JObj.get (hydrateSettings parsed) field = JObj.get parsed field :=
  JObj.get_setKey_ne parsed "enabled" field _ h

/-! ### Claim theorems -/

/-- C1, counterexample to the claim as stated: over a registry whose entry
`p` has the settings field `baseUrl = "b"`, hydrating the persisted payload
`\x7b"p": \x7b"apiKey": "k"\x7d\x7d` — which does not mention `baseUrl` —
leaves the hydrated entry with no `baseUrl` field at all (`some none`: the
entry exists, the field is absent). The prior in-memory value is not
preserved, so hydration does not shallow-merge over the existing
settings. -/
theorem c1_counterexample :
    ((JObj.get (applyProvidersPayload
        [("p", { name := some "p",
                 settings := [("enabled", JVal.bool true), ("baseUrl", JVal.str "b")] })]
        [("p", [("apiKey", JVal.str "k")])]) "p").map
      (fun info => JObj.get info.settings "baseUrl"))
      = some none := by
  rfl

/-- C1 (amended): for every provider name present in the persisted payload
that exists in the in-memory registry, hydration REPLACES that entry's
settings with the persisted record's fields (with `enabled` defaulted to
`true` when the record omits it); fields of the prior in-memory settings
are dropped unless the persisted record mentions them, while the entry's
non-settings fields (its static metadata, e.g. `name`) are preserved. -/
theorem c1_hydration_replaces_settings (orig : Registry) (payload : Payload)
    (provider : String) (parsed : SettingsObj) (info : ProviderInfo)
    (hnd : (payload.map Prod.fst).Nodup)
    (hmem : (provider, parsed) ∈ payload)
    (hcur : JObj.get orig provider = some info) :
    JObj.get (applyProvidersPayload orig payload) provider
      = some { info with settings := hydrateSettings parsed }
    ∧ ∀ field, field ≠ "enabled" →
        JObj.get (hydrateSettings parsed) field = JObj.get parsed field := by
  constructor
  · rw [applyProvidersPayload_get_mem orig payload provider parsed hnd hmem]
    unfold hydrateEntry
    rw [hcur]
  · exact fun field hf => hydrateSettings_get_other parsed field hf

/-- Witness for C1 (amended) at a concrete registry and payload. -/
theorem c1_hydration_replaces_settings_witness :
    JObj.get (applyProvidersPayload
        [("p", { name := some "p",
                 settings := [("enabled", JVal.bool true), ("baseUrl", JVal.str "b")] })]
        [("p", [("apiKey", JVal.str "k")])]) "p"
      = some { name := some "p",
               settings := [("apiKey", JVal.str "k"), ("enabled", JVal.bool true)] } := by
  have h := (c1_hydration_replaces_settings
    [("p", { name := some "p",
             settings := [("enabled", JVal.bool true), ("baseUrl", JVal.str "b")] })]
    [("p", [("apiKey", JVal.str "k")])]
    "p" [("apiKey", JVal.str "k")]
    { name := some "p",
      settings := [("enabled", JVal.bool true), ("baseUrl", JVal.str "b")] }
    (by decide) (by decide) (by decide)).1
  exact h

/-- C2: the claim says an unknown provider name in the persisted payload is
silently ignored with no registry entry created. The code instead spreads
the `undefined` registry lookup and `setKey`s the name: hydrating
`\x7b"mystery": \x7b"apiKey": "x"\x7d\x7d` over a registry without `mystery`
CREATES an entry for `mystery` — with no `name` property and the persisted
settings (`enabled` defaulted to `true`) — while, as the claim says, logging
nothing. This evaluates the code at the failing input. -/
theorem c2_unknown_provider_creates_entry :
    JObj.get (applyProvidersPayload
        [("known", { name := some "known", settings := [("enabled", JVal.bool true)] })]
        [("mystery", [("apiKey", JVal.str "x")])]) "mystery"
      = some { name := none,
               settings := [("apiKey", JVal.str "x"), ("enabled", JVal.bool true)] }
    ∧ (hydrateProviders
        [("known", { name := some "known", settings := [("enabled", JVal.bool true)] })]
        (some "payload")
        (fun _ => JsonParseResult.object [("mystery", [("apiKey", JVal.str "x")])])).2
      = [] := by
  exact ⟨rfl, rfl⟩

/-- C7: for every provider record present in the persisted payload, if the
record omits `enabled`, the hydrated entry's `settings.enabled` is `true`;
and the hydrated `enabled` is `false` only when the record explicitly
persists `false`. -/
theorem c7_enabled_defaults_true (orig : Registry) (payload : Payload)
    (provider : String) (parsed : SettingsObj)
    (hnd : (payload.map Prod.fst).Nodup)
    (hmem : (provider, parsed) ∈ payload) :
    (JObj.get parsed "enabled" = none →
      ∃ info, JObj.get (applyProvidersPayload orig payload) provider = some info
        ∧ JObj.get info.settings "enabled" = some (JVal.bool true))
    ∧ (∀ info, JObj.get (applyProvidersPayload orig payload) provider = some info →
        JObj.get info.settings "enabled" = some (JVal.bool false) →
        JObj.get parsed "enabled" = some (JVal.bool false)) := by
  have hget := applyProvidersPayload_get_mem orig payload provider parsed hnd hmem
  constructor
  · intro hnone
    refine ⟨hydrateEntry orig provider parsed, hget, ?_⟩
    rw [hydrateEntry_settings, hydrateSettings_get_enabled, hnone]
    rfl
  · intro info hinfo hfalse
    rw [hget] at hinfo
    have hset : JObj.get info.settings "enabled"
        = some (nullishDefault (JObj.get parsed "enabled") (JVal.bool true)) := by
      rw [← Option.some_inj.mp hinfo] at hfalse ⊢
      rw [hydrateEntry_settings, hydrateSettings_get_enabled]
    rw [hset] at hfalse
    have hval : nullishDefault (JObj.get parsed "enabled") (JVal.bool true)
        = JVal.bool false := Option.some_inj.mp hfalse
    cases hcase : JObj.get parsed "enabled" with
    | none => rw [hcase] at hval; exact absurd hval (by decide)
    | some v =>
      rw [hcase] at hval
      cases v with
      | bool b => cases b <;> simp_all [nullishDefault]
      | str s => exact absurd hval (by simp [nullishDefault])
      | null => exact absurd hval (by simp [nullishDefault])

/-- Witness for C7 at the spec's own example: payload
`\x7b"anthropic": \x7b"apiKey": "x"\x7d\x7d` hydrates `anthropic` with
`settings.enabled = true`. -/
theorem c7_enabled_defaults_true_witness :
    ∃ info,
      JObj.get (applyProvidersPayload
        [("anthropic", { name := some "anthropic", settings := [("enabled", JVal.bool true)] })]
        [("anthropic", [("apiKey", JVal.str "x")])]) "anthropic" = some info
      ∧ JObj.get info.settings "enabled" = some (JVal.bool true) :=
  (c7_enabled_defaults_true
    [("anthropic", { name := some "anthropic", settings := [("enabled", JVal.bool true)] })]
    [("anthropic", [("apiKey", JVal.str "x")])]
    "anthropic" [("apiKey", JVal.str "x")]
    (by decide) (by decide)).1 (by decide)

/-- C9: for every provider present in the registry,
`updateProviderSettings` shallow-merges the partial config into that
provider's settings — config fields win, existing fields not mentioned in
the config are kept — and every other provider's entry is unchanged. -/
theorem c9_update_provider_settings (providers : Registry) (provider : String)
    (config : SettingsObj) (info : ProviderInfo)
    (hcur : JObj.get providers provider = some info) :
    ∃ providers2,
      updateProviderSettings providers provider config = some providers2
      ∧ JObj.get providers2 provider
          = some { info with settings := JObj.spread info.settings config }
      ∧ (∀ field, JObj.get config field = none →
          JObj.get (JObj.spread info.settings config) field
            = JObj.get info.settings field)
      ∧ (∀ field v, JObj.get config field = some v →
          JObj.get (JObj.spread info.settings config) field = some v)
      ∧ (∀ other, other ≠ provider →
          JObj.get providers2 other = JObj.get providers other) := by
  refine ⟨JObj.setKey providers provider
    { info with settings := JObj.spread info.settings config }, ?_, ?_, ?_, ?_, ?_⟩
  · unfold updateProviderSettings
    rw [hcur]
  · exact JObj.get_setKey_self providers provider _
  · intro field hf
    rw [JObj.get_spread, hf]
    rfl
  · intro field v hf
    rw [JObj.get_spread, hf]
    rfl
  · intro other hother
    exact JObj.get_setKey_ne providers provider other _ hother

/-- Witness for C9 at a concrete registry: the config field wins, the
unmentioned field survives. -/
theorem c9_update_provider_settings_witness :
    ∃ providers2,
      updateProviderSettings
        [("p", { name := some "p",
                 settings := [("enabled", JVal.bool true), ("x", JVal.str "1")] })]
        "p" [("x", JVal.str "2"), ("y", JVal.str "3")] = some providers2
      ∧ JObj.get providers2 "p"
          = some { name := some "p",
                   settings := [("enabled", JVal.bool true), ("x", JVal.str "2"),
                                ("y", JVal.str "3")] } := by
  obtain ⟨providers2, h1, h2, -, -, -⟩ := c9_update_provider_settings
    [("p", { name := some "p",
             settings := [("enabled", JVal.bool true), ("x", JVal.str "1")] })]
    "p" [("x", JVal.str "2"), ("y", JVal.str "3")]
    { name := some "p", settings := [("enabled", JVal.bool true), ("x", JVal.str "1")] }
    (by decide)
  exact ⟨providers2, h1, h2⟩

/-- C10: `updateProviderSettings` dereferences
`providers[provider].settings` with no guard, so a provider name absent
from the registry throws (modelled as `none`); no entry is created and the
call is not a no-op returning the registry. -/
theorem c10_update_absent_provider_throws (providers : Registry)
    (provider : String) (config : SettingsObj)
    (h : JObj.get providers provider = none) :
    updateProviderSettings providers provider config = none := by
  unfold updateProviderSettings
  rw [h]

/-- Witness for C10: updating a provider absent from the registry. -/
theorem c10_update_absent_provider_throws_witness :
    updateProviderSettings
      [("known", { name := some "known", settings := [("enabled", JVal.bool true)] })]
      "mystery" [("x", JVal.str "1")] = none :=
  c10_update_absent_provider_throws _ "mystery" _ (by decide)

theorem map_snd_filter_enabled (reg : Registry) :
    (reg.filter (fun entry => enabledTruthy entry.2.settings)).map
        (fun entry => entry.2)
      = (reg.map (fun entry => entry.2)).filter
          (fun p => enabledTruthy p.settings) := by
  induction reg with
  | nil => rfl
  | cons hd tl ih => by_cases h : enabledTruthy hd.2.settings <;> simp [h, ih]

theorem filter_filter_providers (l : List ProviderInfo)
    (p q : ProviderInfo → Bool) :
    (l.filter p).filter q = l.filter (fun a => p a && q a) := by
  induction l with
  | nil => rfl
  | cons hd tl ih => by_cases hp : p hd <;> by_cases hq : q hd <;> simp [hp, hq, ih]

/-- C3: the active-provider list is exactly the registry's entries, in
enumeration order, whose `settings.enabled` is truthy, with entries whose
name is in the local-provider list additionally excluded when the
local-models preference is off; in particular it never contains a local
provider while the preference is off. -/
theorem c3_active_providers (reg : Registry) (isLocalModel : Bool)
    (localProviders : List String) :
    activeProviders reg isLocalModel localProviders
      = (reg.map (fun entry => entry.2)).filter
          (fun p => enabledTruthy p.settings
            && (isLocalModel || !(isLocalName localProviders p)))
    ∧ (∀ p, p ∈ activeProviders reg false localProviders →
        isLocalName localProviders p = false) := by
  have hchar : ∀ b : Bool, activeProviders reg b localProviders
      = (reg.map (fun entry => entry.2)).filter
          (fun p => enabledTruthy p.settings
            && (b || !(isLocalName localProviders p))) := by
    intro b
    cases b
    · simp only [activeProviders]
      rw [if_pos (by decide : (!false) = true), map_snd_filter_enabled,
        filter_filter_providers (reg.map (fun entry => entry.2))
          (fun p => enabledTruthy p.settings)
          (fun p => !(isLocalName localProviders p))]
      simp only [Bool.false_or]
    · simp only [activeProviders]
      rw [if_neg (by decide : ¬ ((!true) = true))]
      simp only [Bool.true_or, Bool.and_true]
      exact map_snd_filter_enabled reg
  refine ⟨hchar isLocalModel, ?_⟩
  intro p hp
  rw [hchar false] at hp
  have hcond := (List.mem_filter.mp hp).2
  have := (Bool.and_eq_true _ _).mp hcond
  simpa using this.2

/-- Witness for C3: in a registry with `A` enabled, `B` disabled and the
local provider `C` enabled, the member `A` of the active list (local
models off) is not a local provider. -/
theorem c3_active_providers_witness :
    isLocalName ["C"]
      { name := some "A", settings := [("enabled", JVal.bool true)] } = false :=
  (c3_active_providers
    [("A", { name := some "A", settings := [("enabled", JVal.bool true)] }),
     ("B", { name := some "B", settings := [("enabled", JVal.bool false)] }),
     ("C", { name := some "C", settings := [("enabled", JVal.bool true)] })]
    false ["C"]).2
    { name := some "A", settings := [("enabled", JVal.bool true)] }
    (by decide)

/-- C4: the freshness check runs iff the `isLatestBranch` cookie is absent
or a persisted `commitHash` differs from the build's commit; when it runs
the preference is set to the negation of the stability result and both the
preference and the build commit are persisted; otherwise the persisted
preference is used verbatim and nothing is fetched or written. -/
theorem c4_latest_branch_gate (saved chash : Option String)
    (buildCommit : String) (isStable : Bool) :
    ((hydrateLatestBranch saved chash buildCommit isStable).fetched = true
      ↔ saved = none ∨ ∃ c, chash = some c ∧ c ≠ buildCommit)
    ∧ ((hydrateLatestBranch saved chash buildCommit isStable).fetched = true →
        hydrateLatestBranch saved chash buildCommit isStable
          = { fetched := true, store := !isStable,
              cookieLatest := some (boolStr (!isStable)),
              cookieCommit := some buildCommit })
    ∧ ((hydrateLatestBranch saved chash buildCommit isStable).fetched = false →
        hydrateLatestBranch saved chash buildCommit isStable
          = { fetched := false, store := decide (saved = some "true"),
              cookieLatest := none, cookieCommit := none }) := by
  have hne : (chash.getD buildCommit ≠ buildCommit)
      ↔ ∃ c, chash = some c ∧ c ≠ buildCommit := by
    cases chash <;> simp
  unfold hydrateLatestBranch
  by_cases h : saved = none ∨ chash.getD buildCommit ≠ buildCommit
  · rw [if_pos h]
    exact ⟨iff_of_true rfl ((or_congr_right hne).mp h), fun _ => rfl,
      fun hf => absurd hf (by simp)⟩
  · rw [if_neg h]
    exact ⟨iff_of_false (by simp) (fun hr => h ((or_congr_right hne).mpr hr)),
      fun hf => absurd hf (by simp), fun _ => rfl⟩

/-- Witness for C4: persisted preference `"true"` with a matching commit
hash performs no fetch and keeps the preference. -/
theorem c4_latest_branch_gate_witness :
    hydrateLatestBranch (some "true") (some "abc") "abc" false
      = { fetched := false, store := true,
          cookieLatest := none, cookieCommit := none } := by
  have h := (c4_latest_branch_gate (some "true") (some "abc") "abc" false).2.2
    (by decide)
  simpa using h

/-- C5: `checkIsStableVersion` returns `true` iff the fetch came back with
a success status and a JSON body whose `commit` equals the build's commit;
every failure (network error, non-success status, parse failure) returns
`false` with a diagnostic logged. The whole body is in a `try/catch`, so
the function is total and nothing propagates to the caller. -/
theorem c5_check_is_stable (buildCommit : String) (outcome : FetchOutcome) :
    ((checkIsStableVersion buildCommit outcome).1 = true
      ↔ ∃ d, outcome = FetchOutcome.response true (JsonParseResult.object d)
          ∧ d.commit = buildCommit)
    ∧ (fetchFailed outcome = true →
        (checkIsStableVersion buildCommit outcome).1 = false
        ∧ (checkIsStableVersion buildCommit outcome).2 ≠ []) := by
  cases outcome with
  | networkError => simp [checkIsStableVersion, fetchFailed]
  | response ok body =>
    cases ok with
    | false => simp [checkIsStableVersion, fetchFailed]
    | true =>
      cases body with
      | failure => simp [checkIsStableVersion, fetchFailed]
      | nonObject => simp [checkIsStableVersion, fetchFailed]
      | object d =>
        simp only [checkIsStableVersion, fetchFailed, Bool.not_true,
          Bool.false_eq_true, if_false, decide_eq_true_eq]
        constructor
        · constructor
          · intro hq
            exact ⟨d, rfl, hq.symm⟩
          · rintro ⟨d2, hd2, hc⟩
            cases hd2
            exact hc.symm
        · intro hfail
          exact absurd hfail (by simp)

/-- Witness for C5: a non-success status yields `false` and a diagnostic. -/
theorem c5_check_is_stable_witness :
    (checkIsStableVersion "c"
      (FetchOutcome.response false (JsonParseResult.object ⟨"c", none⟩))).1 = false
    ∧ (checkIsStableVersion "c"
      (FetchOutcome.response false (JsonParseResult.object ⟨"c", none⟩))).2 ≠ [] :=
  (c5_check_is_stable "c"
    (FetchOutcome.response false (JsonParseResult.object ⟨"c", none⟩))).2 (by decide)

/-- C6, counterexample to the claim as stated: `enableLatestBranch true`
writes the literal `"true"` to its cookie, yet re-hydrating from that
cookie in an environment whose persisted `commitHash` differs from the
running build's commit runs the freshness check instead of reading the
cookie — with a stable remote the store comes back `false`, not `true`.
The round trip fails for the latest-branch preference. -/
theorem c6_counterexample :
    (enableLatestBranch true).cookieValue = "true"
    ∧ (hydrateLatestBranch (some (enableLatestBranch true).cookieValue)
        (some "oldcommit") "newcommit" true).store = false := by
  exact ⟨rfl, rfl⟩

/-- C6 (amended): every boolean-preference setter writes the literal
`"true"`/`"false"` to its cookie; re-hydration from that cookie reproduces
the in-memory value unconditionally for the debug, event-logs and
local-models preferences, and for the latest-branch preference whenever
the persisted `commitHash` (after defaulting an absent cookie to the build
commit) matches the running build's commit; when it differs, the freshness
check overrides the persisted value. -/
theorem c6_bool_pref_round_trip (b current : Bool) :
    (enableDebugMode b).cookieValue = (if b then "true" else "false")
    ∧ (enableEventLogs b).cookieValue = (if b then "true" else "false")
    ∧ (enableLocalModels b).cookieValue = (if b then "true" else "false")
    ∧ (enableLatestBranch b).cookieValue = (if b then "true" else "false")
    ∧ hydrateBoolPref (some (enableDebugMode b).cookieValue) current = b
    ∧ hydrateBoolPref (some (enableEventLogs b).cookieValue) current = b
    ∧ hydrateBoolPref (some (enableLocalModels b).cookieValue) current = b
    ∧ (∀ chash buildCommit isStable, chash.getD buildCommit = buildCommit →
        (hydrateLatestBranch (some (enableLatestBranch b).cookieValue)
          chash buildCommit isStable).store = b) := by
  cases b <;>
    refine ⟨rfl, rfl, rfl, rfl, rfl, rfl, rfl, ?_⟩ <;>
    · intro chash buildCommit isStable h
      unfold hydrateLatestBranch
      rw [if_neg (by simp [h])]
      rfl

/-- Witness for C6 (amended): setting latest-branch to `true` and
re-hydrating with no `commitHash` cookie reproduces `true`. -/
theorem c6_bool_pref_round_trip_witness :
    (hydrateLatestBranch (some (enableLatestBranch true).cookieValue)
      none "abc" false).store = true :=
  (c6_bool_pref_round_trip true false).2.2.2.2.2.2.2 none "abc" false (by decide)

/-- C8, counterexample to the claim as stated: the empty string is a
non-JSON-parsable cookie value (`JSON.parse("")` throws), but the
`if (saved)` truthiness guards skip it before parsing, so no diagnostic is
logged for it in any of the three loaders — the claim's "a diagnostic is
logged" fails at this input (state is still left at defaults and nothing
throws). -/
theorem c8_counterexample :
    (hydrateProviders [] (some "") (fun _ => JsonParseResult.failure)).2 = []
    ∧ (loadApiKeysFromCookies [] (some "")
        (fun _ => JsonParseResult.failure)).logs = []
    ∧ (loadProviderSettingsFromCookies (some "")
        (fun _ => JsonParseResult.failure)).logs = [] := by
  exact ⟨rfl, rfl, rfl⟩

/-- C8 (amended): for every malformed (non-JSON-parsable) persisted
`providers` or `apiKeys` cookie value, hydration never throws (each loader
is total): a nonempty corrupt value is discarded with a diagnostic logged
— and, in the BaseChat loaders, the corrupt cookie removed — leaving the
in-memory state at its defaults; the empty string is skipped by the
truthiness guard without being parsed or logged, likewise leaving state at
defaults. -/
theorem c8_malformed_cookie_hydration (orig : Registry) (s : String)
    (parseP : String → JsonParseResult Payload)
    (parseA : String → JsonParseResult (JObj String)) (current : JObj String)
    (hp : parseP s = JsonParseResult.failure)
    (ha : parseA s = JsonParseResult.failure) :
    hydrateProviders orig (some s) parseP
      = (orig, if s = "" then [] else ["Failed to parse providers from cookies:"])
    ∧ loadApiKeysFromCookies current (some s) parseA
      = { apiKeys := current, cookieRemoved := decide (s ≠ ""),
          logs := if s = "" then []
                  else ["Error loading API keys from cookies:"] }
    ∧ loadProviderSettingsFromCookies (some s) parseP
      = { providerSettings := none, cookieRemoved := decide (s ≠ ""),
          logs := if s = "" then []
                  else ["Error loading Provider Settings from cookies:"] } := by
  by_cases hs : s = ""
  · subst hs
    simp [hydrateProviders, loadApiKeysFromCookies, loadProviderSettingsFromCookies]
  · simp [hydrateProviders, loadApiKeysFromCookies, loadProviderSettingsFromCookies,
      hs, hp, ha]

/-- Witness for C8 (amended) at a concrete corrupt cookie value. -/
theorem c8_malformed_cookie_hydration_witness :
    hydrateProviders [] (some "notjson") (fun _ => JsonParseResult.failure)
      = ([], ["Failed to parse providers from cookies:"]) := by
  have h := (c8_malformed_cookie_hydration [] "notjson"
    (fun _ => JsonParseResult.failure) (fun _ => JsonParseResult.failure) []
    rfl rfl).1
  simpa using h

end BoltSettings
